import Mathlib

/-!
Verification of the strategy-construction layer of the hypothesis library
(src/hypothesis/strategies.py), shallowly embedded in Lean 4.

Python floats are modelled as an inductive with NaN, signed infinities and
exact finite rational values; arithmetic on finite values overflows to a
signed infinity at the IEEE-754 binary64 round-to-nearest overflow
threshold.  Size arguments (min_size / average_size / max_size) are Python
numbers: either an arbitrary-precision int or a float.  Raising
InvalidArgument (or an assert failure) is modelled with Except.
-/

namespace Hyp

/-- A Python float value: NaN, a signed infinity, or a finite value
(held as an exact rational). -/
inductive PyFloat where
  | nan : PyFloat
  | inf (pos : Bool) : PyFloat
  | finite (q : ℚ) : PyFloat
deriving DecidableEq

/-- The largest finite IEEE-754 binary64 value. -/
def maxFloat : ℚ := (2 ^ 53 - 1) * 2 ^ 971

/-- The IEEE-754 binary64 round-to-nearest overflow threshold: an exact
result whose magnitude reaches this bound rounds to an infinity. -/
def overflowBound : ℚ := 2 ^ 1024 - 2 ^ 970

def PyFloat.isNan : PyFloat → Bool
  | .nan => true
  | _ => false

def PyFloat.isInf : PyFloat → Bool
  | .inf _ => true
  | _ => false

/-- Python < on floats; NaN compares false with everything. -/
def PyFloat.lt : PyFloat → PyFloat → Bool
  | .nan, _ => false
  | _, .nan => false
  | .inf a, .inf b => !a && b
  | .inf a, .finite _ => !a
  | .finite _, .inf b => b
  | .finite p, .finite q => decide (p < q)

/-- Python <= on floats; NaN compares false with everything. -/
def PyFloat.le : PyFloat → PyFloat → Bool
  | .nan, _ => false
  | _, .nan => false
  | .inf a, .inf b => !a || b
  | .inf a, .finite _ => !a
  | .finite _, .inf b => b
  | .finite p, .finite q => decide (p ≤ q)

/-- Python == on floats; NaN is not equal to anything, itself included. -/
def PyFloat.eqv : PyFloat → PyFloat → Bool
  | .nan, _ => false
  | _, .nan => false
  | .inf a, .inf b => a == b
  | .finite p, .finite q => decide (p = q)
  | _, _ => false

/-- Clamp an exact rational result of a float operation to the binary64
range: overflow to a signed infinity at the rounding threshold. -/
def PyFloat.ofRat (q : ℚ) : PyFloat :=
  if overflowBound ≤ q then .inf true
  else if q ≤ -overflowBound then .inf false
  else .finite q

/-- Python float subtraction. -/
def PyFloat.sub : PyFloat → PyFloat → PyFloat
  | .nan, _ => .nan
  | _, .nan => .nan
  | .inf a, .inf b => if a == b then .nan else .inf a
  | .inf a, .finite _ => .inf a
  | .finite _, .inf b => .inf (!b)
  | .finite p, .finite q => PyFloat.ofRat (p - q)

/-- Python float addition. -/
def PyFloat.add : PyFloat → PyFloat → PyFloat
  | .nan, _ => .nan
  | _, .nan => .nan
  | .inf a, .inf b => if a == b then .inf a else .nan
  | .inf a, .finite _ => .inf a
  | .finite _, .inf b => .inf b
  | .finite p, .finite q => PyFloat.ofRat (p + q)

/-- Python float multiplication. -/
def PyFloat.mul : PyFloat → PyFloat → PyFloat
  | .nan, _ => .nan
  | _, .nan => .nan
  | .inf a, .inf b => .inf (a == b)
  | .inf a, .finite q =>
      if q = 0 then .nan else .inf (a == decide (0 < q))
  | .finite q, .inf b =>
      if q = 0 then .nan else .inf (b == decide (0 < q))
  | .finite p, .finite q => PyFloat.ofRat (p * q)

/-- A Python number used as a size argument: an int or a float.
Python ints are arbitrary precision, modelled as Int. -/
inductive SizeVal where
  | int (i : Int) : SizeVal
  | float (f : PyFloat) : SizeVal
deriving DecidableEq

/-- Python < between two size numbers (exact mixed int/float comparison). -/
def SizeVal.lt : SizeVal → SizeVal → Bool
  | .int a, .int b => decide (a < b)
  | .int a, .float f => PyFloat.lt (.finite (a : ℚ)) f
  | .float f, .int b => PyFloat.lt f (.finite (b : ℚ))
  | .float f, .float g => PyFloat.lt f g

/-- Python <= between two size numbers. -/
def SizeVal.le : SizeVal → SizeVal → Bool
  | .int a, .int b => decide (a ≤ b)
  | .int a, .float f => PyFloat.le (.finite (a : ℚ)) f
  | .float f, .int b => PyFloat.le f (.finite (b : ℚ))
  | .float f, .float g => PyFloat.le f g

/-- Python == between two size numbers. -/
def SizeVal.eqv : SizeVal → SizeVal → Bool
  | .int a, .int b => decide (a = b)
  | .int a, .float f => PyFloat.eqv (.finite (a : ℚ)) f
  | .float f, .int b => PyFloat.eqv f (.finite (b : ℚ))
  | .float f, .float g => PyFloat.eqv f g

/-- True when the size value is a float NaN. -/
def SizeVal.isFloatNan : SizeVal → Bool
  | .float f => f.isNan
  | .int _ => false

/-- Python falsiness of a size number (0 and 0.0 are falsy). -/
def SizeVal.isZeroish : SizeVal → Bool
  | .int i => decide (i = 0)
  | .float (.finite q) => decide (q = 0)
  | .float _ => false

/-- Python + between size numbers (int+int stays int, otherwise float). -/
def SizeVal.add : SizeVal → SizeVal → SizeVal
  | .int a, .int b => .int (a + b)
  | .int a, .float f => .float (PyFloat.add (.finite (a : ℚ)) f)
  | .float f, .int b => .float (PyFloat.add f (.finite (b : ℚ)))
  | .float f, .float g => .float (PyFloat.add f g)

/-- Python - between size numbers. -/
def SizeVal.sub : SizeVal → SizeVal → SizeVal
  | .int a, .int b => .int (a - b)
  | .int a, .float f => .float (PyFloat.sub (.finite (a : ℚ)) f)
  | .float f, .int b => .float (PyFloat.sub f (.finite (b : ℚ)))
  | .float f, .float g => .float (PyFloat.sub f g)

/-- Python * between size numbers. -/
def SizeVal.mul : SizeVal → SizeVal → SizeVal
  | .int a, .int b => .int (a * b)
  | .int a, .float f => .float (PyFloat.mul (.finite (a : ℚ)) f)
  | .float f, .int b => .float (PyFloat.mul f (.finite (b : ℚ)))
  | .float f, .float g => .float (PyFloat.mul f g)

/-- Python max of two size numbers: the second argument iff it is
strictly greater. -/
def SizeVal.pymax (a b : SizeVal) : SizeVal :=
  if SizeVal.lt a b then b else a

/-- Errors raised during strategy construction: InvalidArgument from
argument validation, AssertionError from a failed assert statement. -/
inductive Err where
  | invalidArgument : Err
  | assertionError : Err
deriving DecidableEq

/-- Reified Python values, as far as the verified claims need them:
ints, floats, tuples, lists, dicts (insertion-ordered key/value pairs
with distinct keys) and Fraction values (exact rationals). -/
inductive Val where
  | int (i : Int) : Val
  | float (f : PyFloat) : Val
  | tup (vs : List Val) : Val
  | list (vs : List Val) : Val
  | dict (kvs : List (Val × Val)) : Val
  | frac (q : ℚ) : Val

/-- The concrete functions passed to the map combinator inside
strategies.py, represented symbolically. -/
inductive MapFn where
  | subFromConst (c : Int) : MapFn
  | mkFraction : MapFn
  | buildDict (min_size max_size : Option SizeVal) : MapFn
deriving DecidableEq

/-- The concrete predicates passed to the filter combinator inside
strategies.py, represented symbolically. -/
inductive FilterFn where
  | lenGe (k : SizeVal) : FilterFn
deriving DecidableEq

/-- The strategy object graph built by the constructors in strategies.py.
Each constructor of this type corresponds to one SearchStrategy class
reachable from those constructors; the class internals live outside
src/ and are not modelled beyond what the spec states about them. -/
inductive Strategy where
  | just (v : Val) : Strategy
  | oneOfS (args : List Strategy) : Strategy
  | boolS : Strategy
  | randomGeometricInt : Strategy
  | wideRangeInt : Strategy
  | integersFrom (min : SizeVal) (average_size : Option SizeVal) : Strategy
  | boundedInt (lo hi : SizeVal) : Strategy
  | mapS (s : Strategy) (f : MapFn) : Strategy
  | filterS (s : Strategy) (p : FilterFn) : Strategy
  | tupleS (ss : List Strategy) : Strategy
  | listS (ss : List Strategy) (average_length min_size max_size : Option SizeVal) : Strategy
  | singleElementList (elt length_strat : Strategy) : Strategy
  | setS (ss : List Strategy) (average_length max_size : Option SizeVal) : Strategy
  | fixedKeysDict (mapping : List (Val × Strategy)) : Strategy
  | wrapperFloat (s : Strategy) : Strategy
  | gaussianFloat : Strategy
  | boundedFloat : Strategy
  | exponentialFloat : Strategy
  | justIntFloats : Strategy
  | nastyFloats : Strategy
  | fullRangeFloats : Strategy
  | fixedBoundedFloat (lo hi : PyFloat) : Strategy
  | floatsFromBase (base : PyFloat) (sign : Int) : Strategy

mutual

/-- Boolean equality of reified values, modelling Python == on the
value shapes the claims use (dict keys in particular). -/
def Val.beq : Val → Val → Bool
  | .int a, .int b => decide (a = b)
  | .float a, .float b => decide (a = b)
  | .tup as, .tup bs => Val.beqList as bs
  | .list as, .list bs => Val.beqList as bs
  | .dict as, .dict bs => Val.beqPairs as bs
  | .frac a, .frac b => decide (a = b)
  | _, _ => false

/-- Elementwise Val.beq on lists. -/
def Val.beqList : List Val → List Val → Bool
  | [], [] => true
  | a :: as, b :: bs => Val.beq a b && Val.beqList as bs
  | _, _ => false

/-- Elementwise Val.beq on key/value pair lists. -/
def Val.beqPairs : List (Val × Val) → List (Val × Val) → Bool
  | [], [] => true
  | (k1, v1) :: as, (k2, v2) :: bs =>
      Val.beq k1 k2 && Val.beq v1 v2 && Val.beqPairs as bs
  | _, _ => false

end

/-- Modelled from the spec: the | operator on strategies (not under src/)
combines its two operands with one_of, giving a union strategy that holds
the operands in order (spec section 4.3). -/
def hOr (a b : Strategy) : Strategy := .oneOfS [a, b]

mutual

/-- Modelled from the spec: distinct_template_upper_bound, the possibly
infinite count of structurally distinct templates of a strategy
(spec section 3); the implementation lives outside src/.  A constant
strategy has one template, booleans two, a bounded int range its width;
unions add, tuples multiply, map and filter preserve the underlying
template space, numeric leaf strategies are unbounded. -/
def template_upper_bound : Strategy → ℕ∞
  | .just _ => 1
  | .oneOfS args => tubSum args
  | .boolS => 2
  | .randomGeometricInt => ⊤
  | .wideRangeInt => ⊤
  | .integersFrom _ _ => ⊤
  | .boundedInt (.int lo) (.int hi) => ((hi + 1 - lo).toNat : ℕ∞)
  | .boundedInt _ _ => ⊤
  | .mapS s _ => template_upper_bound s
  | .filterS s _ => template_upper_bound s
  | .tupleS ss => tubProd ss
  | .listS [] _ _ _ => 1
  | .listS _ _ _ _ => ⊤
  | .singleElementList _ length_strat => template_upper_bound length_strat
  | .setS [] _ _ => 1
  | .setS _ _ _ => ⊤
  | .fixedKeysDict mapping => tubProdPairs mapping
  | _ => ⊤

/-- Sum of the distinct-template bounds of a list of strategies. -/
def tubSum : List Strategy → ℕ∞
  | [] => 0
  | s :: rest => template_upper_bound s + tubSum rest

/-- Product of the distinct-template bounds of a list of strategies. -/
def tubProd : List Strategy → ℕ∞
  | [] => 1
  | s :: rest => template_upper_bound s * tubProd rest

/-- Product of the distinct-template bounds of the value strategies of a
fixed-keys mapping. -/
def tubProdPairs : List (Val × Strategy) → ℕ∞
  | [] => 1
  | (_, s) :: rest => template_upper_bound s * tubProdPairs rest

end

/-- Python comparison bound < size, where the bound may be infinite
(the unbounded case compares like float inf: never below a size). -/
def boundLt (b : ℕ∞) (v : SizeVal) : Bool :=
  match b with
  | ⊤ =>
      match v with
      | .float (.inf true) => false
      | _ => false
  | (n : ℕ) =>
      match v with
      | .int k => decide ((n : Int) < k)
      | .float f => PyFloat.lt (.finite (n : ℚ)) f

/-- Modelled from the spec: the process-wide default Settings value
average_list_length (spec section 3); Settings is not under src/.  It is
a pure distribution hint, so its numeric value affects no claim. -/
def averageListLength : SizeVal := .float (.finite 50)

/-- Python expression size or default: the default when size is absent
or falsy (0 or 0.0). -/
def orDefault (a : Option SizeVal) : SizeVal :=
  match a with
  | none => averageListLength
  | some v => if v.isZeroish then averageListLength else v

/-- Python expression average_size or 0 from dictionaries. -/
def orZero (a : Option SizeVal) : SizeVal :=
  match a with
  | none => .int 0
  | some v => if v.isZeroish then .int 0 else v

/-- Conflicting bounds: a given max_size below a given min_size (the
arguments are lower bound first, upper bound second). -/
def conflictingSizes (mn mx : Option SizeVal) : Bool :=
  match mn, mx with
  | some a, some b => SizeVal.lt b a
  | _, _ => false

/-- Python test size == 0 on an optional size. -/
def sizeEqZero (o : Option SizeVal) : Bool :=
  match o with
  | some m => SizeVal.eqv m (.int 0)
  | none => false

/-- Python test size is not None and size <= 0. -/
def sizeLeZero (o : Option SizeVal) : Bool :=
  match o with
  | some m => SizeVal.le m (.int 0)
  | none => false

/-- Python test size is None or size > 0. -/
def noBoundOrPos (o : Option SizeVal) : Bool :=
  match o with
  | none => true
  | some m => SizeVal.lt (.int 0) m

/-- Python test min_size is not None and bound < min_size. -/
def belowBound (b : ℕ∞) (o : Option SizeVal) : Bool :=
  match o with
  | some mn => boundLt b mn
  | none => false

/-- check_valid_size from strategies.py: a size must be a non-negative,
non-NaN number.  The isinstance check on the number type is enforced by
the SizeVal type itself. -/
def check_valid_size (value : Option SizeVal) : Except Err Unit :=
  match value with
  | none => .ok ()
  | some v =>
      if SizeVal.lt v (.int 0) then .error .invalidArgument
      else if v.isFloatNan then .error .invalidArgument
      else .ok ()

/-- check_valid_sizes from strategies.py: each size valid on its own,
then max_size at least min_size and average_size, and average_size at
least min_size. -/
def check_valid_sizes (min_size average_size max_size : Option SizeVal) :
    Except Err Unit :=
  match check_valid_size min_size with
  | .error e => .error e
  | .ok _ =>
    match check_valid_size max_size with
    | .error e => .error e
    | .ok _ =>
      match check_valid_size average_size with
      | .error e => .error e
      | .ok _ =>
        if conflictingSizes min_size max_size then .error .invalidArgument
        else if conflictingSizes average_size max_size then .error .invalidArgument
        else if conflictingSizes min_size average_size then .error .invalidArgument
        else .ok ()

/-- check_strategy from strategies.py.  In the typed model every
Strategy value is a SearchStrategy, so only a missing argument (None)
can fail the isinstance check. -/
def check_strategy (arg : Option Strategy) : Except Err Strategy :=
  match arg with
  | none => .error .invalidArgument
  | some s => .ok s

/-- A size argument must be a Python int; check_type(integer_types, x)
from strategies.py. -/
def checkTypeInt (v : SizeVal) : Except Err Int :=
  match v with
  | .int i => .ok i
  | .float _ => .error .invalidArgument

/-- just from strategies.py: the strategy generating only value. -/
def just (value : Val) : Strategy := .just value

/-- booleans from strategies.py. -/
def booleans : Strategy := .boolS

/-- one_of from strategies.py: with a single argument it returns that
argument itself, otherwise it builds a OneOfStrategy over all of them. -/
def one_of (arg : Strategy) (args : List Strategy) : Strategy :=
  match args with
  | [] => arg
  | _ => .oneOfS (arg :: args)

/-- tuples from strategies.py. -/
def tuples (args : List Strategy) : Strategy := .tupleS args

/-- fixed_dictionaries from strategies.py. -/
def fixed_dictionaries (mapping : List (Val × Strategy)) : Strategy :=
  .fixedKeysDict mapping

/-- integers from strategies.py.  Unbounded: geometric union wide-range.
Only an upper bound: integers-from-zero mapped through subtraction.
Only a lower bound: integers-from.  Both bounds: a constant strategy
when they coincide, an error when they conflict, a bounded strategy
otherwise.  Note the source type-checks min_value, and max_value only
when min_value is absent. -/
def integers (min_value max_value : Option SizeVal) : Except Err Strategy :=
  match min_value with
  | none =>
    match max_value with
    | none => .ok (hOr .randomGeometricInt .wideRangeInt)
    | some mxv =>
      match checkTypeInt mxv with
      | .error e => .error e
      | .ok c => .ok (.mapS (.integersFrom (.int 0) none) (.subFromConst c))
  | some mnv =>
    match checkTypeInt mnv with
    | .error e => .error e
    | .ok m =>
      match max_value with
      | none => .ok (.integersFrom (.int m) none)
      | some mx =>
        if SizeVal.eqv (.int m) mx then .ok (.just (.int m))
        else if SizeVal.lt mx (.int m) then .error .invalidArgument
        else .ok (.boundedInt (.int m) mx)

/-- Python equality test against a specific float constant, mapping the
argument to None on a match (the endpoint normalization in floats). -/
def noneIfEq (a : Option PyFloat) (c : PyFloat) : Option PyFloat :=
  match a with
  | some f => if PyFloat.eqv f c then none else some f
  | none => none

def optIsNan (a : Option PyFloat) : Bool :=
  match a with
  | some f => f.isNan
  | none => false

/-- floats from strategies.py, with explicit recursion fuel.  NaN
endpoints are rejected first; a -inf lower or +inf upper endpoint is
dropped; conflicting bounds raise; equal bounds collapse to a constant;
a bounded range of infinite width splits (after an assert) into two
half ranges joined at zero; otherwise the matching leaf strategy is
built.  The recursion in the split branch runs at most one level deep on
any input, so the fuel never reaches zero from the floats wrapper. -/
def floatsF : Nat → Option PyFloat → Option PyFloat → Except Err Strategy
  | 0, _, _ => .error .assertionError
  | fuel + 1, min_value, max_value =>
    if optIsNan min_value || optIsNan max_value then .error .invalidArgument
    else
      match noneIfEq min_value (.inf false), noneIfEq max_value (.inf true) with
      | none, none =>
          .ok (.wrapperFloat (hOr (hOr (hOr (hOr (hOr
            .gaussianFloat .boundedFloat) .exponentialFloat)
            .justIntFloats) .nastyFloats) .fullRangeFloats))
      | some mn, some mx =>
        if PyFloat.lt mx mn then .error .invalidArgument
        else if PyFloat.eqv mn mx then .ok (.just (.float mn))
        else if (PyFloat.sub mx mn).isInf then
          if PyFloat.lt mn (.finite 0) && PyFloat.lt (.finite 0) mx then
            match floatsF fuel (some (.finite 0)) (some mx) with
            | .error e => .error e
            | .ok s1 =>
              match floatsF fuel (some mn) (some (.finite 0)) with
              | .error e => .error e
              | .ok s2 => .ok (hOr s1 s2)
          else .error .assertionError
        else .ok (.fixedBoundedFloat mn mx)
      | some mn, none =>
          .ok (hOr (.floatsFromBase mn 1) (.just (.float (.inf true))))
      | none, some mx =>
          .ok (hOr (.floatsFromBase mx (-1)) (.just (.float (.inf false))))

/-- floats from strategies.py.  Python also accepts int endpoints,
which compare and subtract exactly like the equal-valued float; the
model takes the float values directly. -/
def floats (min_value max_value : Option PyFloat) : Except Err Strategy :=
  floatsF 2 min_value max_value

/-- lists from strategies.py: sizes validated first; min_size defaults
to 0 and average_size to the settings default or the bounds midpoint;
with no element strategy only max_size 0 is allowed and gives the empty
list strategy; an element strategy with a single distinct template gives
the specialized single-element representation drawing only a length;
otherwise the general list strategy. -/
def lists (elements : Option Strategy)
    (min_size average_size max_size : Option SizeVal) :
    Except Err Strategy :=
  match check_valid_sizes min_size average_size max_size with
  | .error e => .error e
  | .ok _ =>
    let min_size' : SizeVal := min_size.getD (.int 0)
    let average_size' : SizeVal :=
      match average_size with
      | some a => a
      | none =>
        match max_size with
        | none => averageListLength
        | some mx =>
            SizeVal.mul (SizeVal.add min_size' mx) (.float (.finite (1/2)))
    match elements with
    | none =>
      if noBoundOrPos max_size then .error .invalidArgument
      else .ok (.listS [] none none none)
    | some elts =>
      if sizeLeZero max_size then .ok (.listS [] none none none)
      else if template_upper_bound elts = 1 then
        match max_size with
        | none =>
            .ok (.singleElementList elts
              (.integersFrom min_size' (some (SizeVal.sub average_size' min_size'))))
        | some mx =>
            match integers (some min_size') (some mx) with
            | .error e => .error e
            | .ok length_strat => .ok (.singleElementList elts length_strat)
      else
        .ok (.listS [elts] (some average_size') (some min_size') max_size)

/-- sets from strategies.py: sizes validated first; max_size 0 gives the
empty set strategy; a min_size above the element strategy's
distinct-template upper bound raises; otherwise a set strategy, wrapped
in a length filter when min_size is given. -/
def sets (elements : Option Strategy)
    (min_size average_size max_size : Option SizeVal) :
    Except Err Strategy :=
  match check_valid_sizes min_size average_size max_size with
  | .error e => .error e
  | .ok _ =>
    if sizeEqZero max_size then .ok (.setS [] none none)
    else
      match check_strategy elements with
      | .error e => .error e
      | .ok elts =>
        if belowBound (template_upper_bound elts) min_size then
          .error .invalidArgument
        else
          match min_size with
          | some mn =>
              .ok (.filterS (.setS [elts] (some (orDefault average_size)) max_size)
                (.lenGe mn))
          | none => .ok (.setS [elts] (some (orDefault average_size)) max_size)

/-- Python dict insertion for build_dict: an existing key (under the
given key equality, Python ==) has its value replaced in place, a new
key is appended. -/
def dictInsert {K V : Type} (keq : K → K → Bool)
    (d : List (K × V)) (k : K) (v : V) : List (K × V) :=
  if d.any fun p => keq p.1 k then
    d.map fun p => if keq p.1 k then (p.1, v) else p
  else d ++ [(k, v)]

/-- The comparison len(result) greater-or-equal max_size from
build_dict; false when max_size is absent. -/
def lenReached (mx : Option SizeVal) (n : Nat) : Bool :=
  match mx with
  | some m => SizeVal.le m (.int (n : Int))
  | none => false

/-- The for loop of build_dict from dictionaries: fold the (key, value)
pairs into the mapping, stopping as soon as the mapping's size has
reached max_size. -/
def build_dict_loop {K V : Type} (keq : K → K → Bool) (mx : Option SizeVal) :
    List (K × V) → List (K × V) → List (K × V)
  | [], result => result
  | (k, v) :: rest, result =>
      let r := dictInsert keq result k v
      if lenReached mx r.length then r
      else build_dict_loop keq mx rest r

/-- The comparison min_size is None or len(result) greater-or-equal
min_size from the assume call of build_dict. -/
def minSizeOK (mn : Option SizeVal) (n : Nat) : Bool :=
  match mn with
  | none => true
  | some m => SizeVal.le m (.int (n : Int))

/-- build_dict, the inner function of dictionaries in strategies.py:
fold the drawn pairs into a fresh mapping, truncating at max_size, and
discard the draw (the assume call, modelled as none) when fewer than
min_size keys remain. -/
def build_dict {K V : Type} (keq : K → K → Bool)
    (min_size max_size : Option SizeVal) (data : List (K × V)) :
    Option (List (K × V)) :=
  let result := build_dict_loop keq max_size data []
  if minSizeOK min_size result.length then some result
  else none

/-- dictionaries from strategies.py: sizes validated first; max_size 0
gives an empty fixed dictionary; otherwise a list of (key, value)
tuples, with an average size raised to at least twice min_size, mapped
through build_dict.  The dict_class argument only selects the mapping
type of the result and is not modelled; mappings are insertion-ordered
key/value pair lists. -/
def dictionaries (keys values : Option Strategy)
    (min_size average_size max_size : Option SizeVal) :
    Except Err Strategy :=
  match check_valid_sizes min_size average_size max_size with
  | .error e => .error e
  | .ok _ =>
    if sizeEqZero max_size then .ok (fixed_dictionaries [])
    else
      match check_strategy keys with
      | .error e => .error e
      | .ok ks =>
        match check_strategy values with
        | .error e => .error e
        | .ok vs =>
          let average_size' : Option SizeVal :=
            match min_size with
            | some mn =>
                some (SizeVal.pymax (orZero average_size) (SizeVal.mul mn (.int 2)))
            | none => average_size
          match lists (some (tuples [ks, vs])) min_size average_size' none with
          | .error e => .error e
          | .ok L => .ok (.mapS L (.buildDict min_size max_size))

/-- fractions from strategies.py: pairs of an unbounded integer and an
integer at least 1, mapped through the Fraction constructor. -/
def fractions : Except Err Strategy :=
  match integers none none with
  | .error e => .error e
  | .ok num =>
    match integers (some (.int 1)) none with
    | .error e => .error e
    | .ok den => .ok (.mapS (tuples [num, den]) .mkFraction)

/-- Unpack a reified list of 2-tuples into pairs, as the Python
statement for k, v in data does; anything else raises (none). -/
def extractPairs : List Val → Option (List (Val × Val))
  | [] => some []
  | .tup [k, v] :: rest => (extractPairs rest).map fun ps => (k, v) :: ps
  | _ => none

/-- Evaluate one of the symbolically represented map functions on a
reified value; none models an exception during reification (for the
Fraction constructor, a zero denominator). -/
def applyMapFn : MapFn → Val → Option Val
  | .subFromConst c, .int x => some (.int (c - x))
  | .subFromConst _, _ => none
  | .mkFraction, .tup [.int n, .int d] =>
      if d = 0 then none else some (.frac ((n : ℚ) / (d : ℚ)))
  | .mkFraction, _ => none
  | .buildDict mn mx, .list vs =>
      (extractPairs vs).bind fun pairs =>
        (build_dict Val.beq mn mx pairs).map Val.dict
  | .buildDict _ _, _ => none

/-- Modelled from the spec: the possible reified values of a strategy
(spec sections 4.1 and 4.3 and the docstrings in strategies.py); the
reify implementations live outside src/.  A constant strategy yields its
value; a union yields a value of one branch; the unbounded integer
leaves yield any integer; integers-from yields any integer at least its
lower bound; a bounded integer strategy yields any integer between its
bounds; tuples yield component values of matching shape; a list strategy
yields lists of element values whose length respects the bounds; a
mapped strategy yields the image of an inner value. -/
inductive Reifies : Strategy → Val → Prop where
  | justR (v : Val) : Reifies (.just v) v
  | oneOfR {args : List Strategy} {s : Strategy} {v : Val} :
      s ∈ args → Reifies s v → Reifies (.oneOfS args) v
  | geoR (i : Int) : Reifies .randomGeometricInt (.int i)
  | wideR (i : Int) : Reifies .wideRangeInt (.int i)
  | integersFromR {m i : Int} {avg : Option SizeVal} :
      m ≤ i → Reifies (.integersFrom (.int m) avg) (.int i)
  | boundedIntR {lo hi i : Int} :
      lo ≤ i → i ≤ hi → Reifies (.boundedInt (.int lo) (.int hi)) (.int i)
  | tupleNilR : Reifies (.tupleS []) (.tup [])
  | tupleConsR {s : Strategy} {ss : List Strategy} {v : Val} {vs : List Val} :
      Reifies s v → Reifies (.tupleS ss) (.tup vs) →
      Reifies (.tupleS (s :: ss)) (.tup (v :: vs))
  | listR {e : Strategy} {avg mn mx : Option SizeVal} {vs : List Val} :
      (∀ v ∈ vs, Reifies e v) →
      (∀ m, mn = some m → SizeVal.le m (.int (vs.length : Int)) = true) →
      (∀ m, mx = some m → SizeVal.le (.int (vs.length : Int)) m = true) →
      Reifies (.listS [e] avg mn mx) (.list vs)
  | mapR {s : Strategy} {f : MapFn} {u v : Val} :
      Reifies s u → applyMapFn f u = some v → Reifies (.mapS s f) v

/-- A size argument that check_valid_size rejects: negative or NaN. -/
def badSize (o : Option SizeVal) : Bool :=
  match o with
  | none => false
  | some v => SizeVal.lt v (.int 0) || v.isFloatNan

/-- The count n stays within the size bound m, rounding a fractional
float bound up: at most m for an int, below m plus one for a finite
float, anything for positive infinity. -/
def sizeUpperOK (m : SizeVal) (n : Nat) : Prop :=
  match m with
  | .int i => (n : Int) ≤ i
  | .float (.finite q) => (n : ℚ) < q + 1
  | .float (.inf true) => True
  | .float (.inf false) => False
  | .float .nan => False

/-- The length strategy of a single-element list strategy respects the
size bounds: with no max_size it is integers-from min_size, with a
max_size it is whatever integers of the two bounds returns. -/
def lengthRespects (mn : Int) (mx : Option Int) (ls : Strategy) : Prop :=
  match mx with
  | none => ∃ avgv, ls = .integersFrom (.int mn) (some avgv)
  | some m => integers (some (.int mn)) (some (.int m)) = .ok ls

/-- Discriminator for the specialized single-element list
representation. -/
def isSingleList (s : Strategy) : Bool :=
  match s with
  | .singleElementList _ _ => true
  | _ => false

/-- C3: integers with min_value equal to max_value collapses to the
constant strategy just of that value, and the constant strategy reifies
only to that value. -/
theorem integers_degenerate_constant (v : Int) :
    integers (some (.int v)) (some (.int v)) = .ok (.just (.int v))
    ∧ ∀ x, Reifies (.just (.int v)) x → x = .int v := by
  constructor
  · simp [integers, checkTypeInt, SizeVal.eqv]
  · intro x h
    cases h
    rfl

theorem integers_degenerate_constant_witness :
    integers (some (.int 3)) (some (.int 3)) = .ok (.just (.int 3))
    ∧ Val.int 3 = .int 3 :=
  ⟨(integers_degenerate_constant 3).1,
   (integers_degenerate_constant 3).2 (.int 3) (.justR _)⟩

/-- C6: integers with no bounds is exactly the one_of union of the
geometric-decay strategy and the wide-range strategy, in that order. -/
theorem integers_unbounded_union :
    integers none none = .ok (.oneOfS [.randomGeometricInt, .wideRangeInt])
    ∧ one_of .randomGeometricInt [.wideRangeInt] =
        .oneOfS [.randomGeometricInt, .wideRangeInt] :=
  ⟨rfl, rfl⟩

/-- C9: one_of with a single argument returns that argument itself,
while one_of with more arguments builds a union strategy over all of
them in order. -/
theorem one_of_singleton_identity :
    (∀ s : Strategy, one_of s [] = s)
    ∧ ∀ (s : Strategy) (rest : List Strategy), rest ≠ [] →
        one_of s rest = .oneOfS (s :: rest) := by
  refine ⟨fun s => rfl, fun s rest h => ?_⟩
  cases rest with
  | nil => exact absurd rfl h
  | cons a as => rfl

theorem one_of_singleton_identity_witness :
    one_of .boolS [] = .boolS
    ∧ one_of .boolS [.randomGeometricInt] =
        .oneOfS [.boolS, .randomGeometricInt] :=
  ⟨one_of_singleton_identity.1 .boolS,
   one_of_singleton_identity.2 .boolS [.randomGeometricInt] (by simp)⟩

/-- C4: floats rejects a NaN endpoint with InvalidArgument immediately,
before any sub-strategy of the result is built. -/
theorem floats_nan_endpoint_rejected (a b : Option PyFloat)
    (h : (optIsNan a || optIsNan b) = true) :
    floats a b = .error .invalidArgument := by
  simp only [floats, floatsF, h, if_true]

theorem floats_nan_endpoint_rejected_witness :
    (optIsNan (some .nan) || optIsNan none) = true
    ∧ floats (some .nan) none = .error .invalidArgument :=
  ⟨rfl, floats_nan_endpoint_rejected (some .nan) none rfl⟩

/-- C10: fractions is the pair strategy of an unbounded integer and an
integer at least 1 mapped through the Fraction constructor; every
reified pair has denominator at least 1, so the Fraction constructor
never sees a zero denominator. -/
theorem fractions_denominator_positive :
    fractions = .ok (.mapS (.tupleS [.oneOfS [.randomGeometricInt, .wideRangeInt],
        .integersFrom (.int 1) none]) .mkFraction)
    ∧ ∀ x, Reifies (.tupleS [.oneOfS [.randomGeometricInt, .wideRangeInt],
        .integersFrom (.int 1) none]) x →
      ∃ n d : Int, x = .tup [.int n, .int d] ∧ 1 ≤ d
        ∧ applyMapFn .mkFraction x ≠ none := by
  refine ⟨rfl, fun x h => ?_⟩
  cases h with
  | tupleConsR h1 h2 =>
    cases h2 with
    | tupleConsR h3 h4 =>
      cases h4
      cases h3 with
      | integersFromR hd =>
        cases h1 with
        | oneOfR hmem hr =>
          simp only [List.mem_cons, List.mem_singleton, List.not_mem_nil,
            or_false] at hmem
          rcases hmem with hg | hw
          · subst hg
            cases hr with
            | geoR n =>
              refine ⟨n, _, rfl, hd, ?_⟩
              simp [applyMapFn]
              omega
          · subst hw
            cases hr with
            | wideR n =>
              refine ⟨n, _, rfl, hd, ?_⟩
              simp [applyMapFn]
              omega

theorem fractions_denominator_positive_witness :
    fractions = .ok (.mapS (.tupleS [.oneOfS [.randomGeometricInt, .wideRangeInt],
        .integersFrom (.int 1) none]) .mkFraction)
    ∧ applyMapFn .mkFraction (.tup [.int 0, .int 1]) ≠ none := by
  refine ⟨fractions_denominator_positive.1, ?_⟩
  obtain ⟨n, d, hx, hd, hne⟩ :=
    fractions_denominator_positive.2 (.tup [.int 0, .int 1])
      (Reifies.tupleConsR
        (Reifies.oneOfR (List.mem_cons_self _ _) (Reifies.geoR 0))
        (Reifies.tupleConsR (Reifies.integersFromR (le_refl 1))
          Reifies.tupleNilR))
  exact hne

/-- C2: sets with a min_size strictly above the element strategy's
distinct-template upper bound raises InvalidArgument at construction. -/
theorem sets_min_size_above_bound (e : Strategy) (k : Int)
    (h : boundLt (template_upper_bound e) (.int k) = true) :
    sets (some e) (some (.int k)) none none = .error .invalidArgument := by
  have hk : 0 < k := by
    rcases hb : template_upper_bound e with _ | n
    · rw [hb] at h
      simp [boundLt] at h
    · rw [hb] at h
      simp only [boundLt, decide_eq_true_eq] at h
      omega
  have hk0 : SizeVal.lt (.int k) (.int 0) = false := by
    simp only [SizeVal.lt, decide_eq_false_iff_not]
    omega
  simp [sets, check_valid_sizes, check_valid_size, check_strategy,
    conflictingSizes, sizeEqZero, belowBound, hk0, SizeVal.isFloatNan, h]

theorem sets_min_size_above_bound_witness :
    boundLt (template_upper_bound .boolS) (.int 3) = true
    ∧ sets (some .boolS) (some (.int 3)) none none = .error .invalidArgument := by
  have h : boundLt (template_upper_bound .boolS) (.int 3) = true := by
    simp [boundLt, template_upper_bound]
  exact ⟨h, sets_min_size_above_bound .boolS 3 h⟩

theorem check_valid_size_eq (o : Option SizeVal) :
    check_valid_size o = if badSize o then .error .invalidArgument else .ok () := by
  cases o with
  | none => rfl
  | some v =>
    rcases hv1 : SizeVal.lt v (.int 0) <;> rcases hv2 : v.isFloatNan <;>
      simp [check_valid_size, badSize, hv1, hv2]

theorem check_valid_sizes_bad (mn avg mx : Option SizeVal)
    (h : (badSize mn || badSize avg || badSize mx || conflictingSizes mn mx) = true) :
    check_valid_sizes mn avg mx = .error .invalidArgument := by
  simp only [check_valid_sizes, check_valid_size_eq]
  rcases h1 : badSize mn <;> rcases h2 : badSize avg <;> rcases h3 : badSize mx <;>
    simp [h1, h2, h3] at h ⊢
  rcases mn with _ | a <;> rcases mx with _ | b <;>
    simp [conflictingSizes] at h ⊢
  simp [h]

theorem check_valid_sizes_ok_not_bad (mn avg mx : Option SizeVal)
    (h : check_valid_sizes mn avg mx = .ok ()) :
    (badSize mn || badSize avg || badSize mx || conflictingSizes mn mx) = false := by
  rcases hx : (badSize mn || badSize avg || badSize mx || conflictingSizes mn mx)
  · rfl
  · rw [check_valid_sizes_bad mn avg mx hx] at h
    exact absurd h (by simp)

/-- C1: every bound-validated constructor rejects conflicting or
malformed bounds synchronously with InvalidArgument: integers with
max_value below min_value; floats with max_value below min_value; and
the collection constructors lists, sets and dictionaries whenever a
size is negative or NaN or max_size is below min_size. -/
theorem invalid_construction_rejected :
    (∀ lo hi : Int, hi < lo →
        integers (some (.int lo)) (some (.int hi)) = .error .invalidArgument)
    ∧ (∀ a b : PyFloat, PyFloat.lt b a = true →
        floats (some a) (some b) = .error .invalidArgument)
    ∧ (∀ (e ks vs : Option Strategy) (mn avg mx : Option SizeVal),
        (badSize mn || badSize avg || badSize mx || conflictingSizes mn mx) = true →
        lists e mn avg mx = .error .invalidArgument
        ∧ sets e mn avg mx = .error .invalidArgument
        ∧ dictionaries ks vs mn avg mx = .error .invalidArgument) := by
  refine ⟨?_, ?_, ?_⟩
  · intro lo hi h
    have hne : ¬(lo = hi) := by omega
    simp [integers, checkTypeInt, SizeVal.eqv, SizeVal.lt, hne, h]
  · intro a b h
    cases a with
    | nan => cases b <;> simp [PyFloat.lt] at h
    | inf apos =>
      cases b with
      | nan => simp [PyFloat.lt] at h
      | inf bpos =>
        simp only [PyFloat.lt, Bool.and_eq_true, Bool.not_eq_true'] at h
        obtain ⟨hb, ha⟩ := h
        subst hb
        subst ha
        simp [floats, floatsF, optIsNan, PyFloat.isNan, noneIfEq,
          PyFloat.eqv, PyFloat.lt]
      | finite q =>
        simp only [PyFloat.lt] at h
        subst h
        simp [floats, floatsF, optIsNan, PyFloat.isNan, noneIfEq,
          PyFloat.eqv, PyFloat.lt]
    | finite p =>
      cases b with
      | nan => simp [PyFloat.lt] at h
      | inf bpos =>
        simp only [PyFloat.lt, Bool.not_eq_true'] at h
        subst h
        simp [floats, floatsF, optIsNan, PyFloat.isNan, noneIfEq,
          PyFloat.eqv, PyFloat.lt]
      | finite q =>
        simp only [PyFloat.lt, decide_eq_true_eq] at h
        simp [floats, floatsF, optIsNan, PyFloat.isNan, noneIfEq,
          PyFloat.eqv, PyFloat.lt, h]
  · intro e ks vs mn avg mx h
    have hc := check_valid_sizes_bad mn avg mx h
    exact ⟨by simp [lists, hc], by simp [sets, hc], by simp [dictionaries, hc]⟩

/-- C5: for finite endpoints of either sign whose difference overflows
to infinity, floats splits into the union of the two half ranges joined
at zero, in source order. -/
theorem floats_infinite_width_split (a b : ℚ)
    (ha : a < 0) (hb : 0 < b)
    (hal : -maxFloat ≤ a) (hbu : b ≤ maxFloat)
    (hover : (PyFloat.sub (.finite b) (.finite a)).isInf = true) :
    ∃ s1 s2,
      floats (some (.finite 0)) (some (.finite b)) = .ok s1
      ∧ floats (some (.finite a)) (some (.finite 0)) = .ok s2
      ∧ floats (some (.finite a)) (some (.finite b)) = .ok (hOr s1 s2) := by
  have hmo : maxFloat < overflowBound := by
    norm_num [maxFloat, overflowBound]
  have hob : (0 : ℚ) < overflowBound := by
    norm_num [overflowBound]
  have hd : overflowBound ≤ b - a := by
    simp only [PyFloat.sub, PyFloat.ofRat] at hover
    split at hover
    · assumption
    · split at hover
      · linarith
      · simp [PyFloat.isInf] at hover
  have key1 : ∀ fuel, floatsF (fuel + 1) (some (.finite 0)) (some (.finite b)) =
      .ok (.fixedBoundedFloat (.finite 0) (.finite b)) := by
    intro fuel
    have h1 : ¬(b < 0) := by linarith
    have h2 : ¬((0 : ℚ) = b) := by linarith
    have h3 : ¬(overflowBound ≤ b) := by linarith
    have h4 : ¬(b ≤ -overflowBound) := by linarith
    simp [floatsF, optIsNan, PyFloat.isNan, noneIfEq, PyFloat.eqv,
      PyFloat.lt, PyFloat.sub, PyFloat.ofRat, PyFloat.isInf, h1, h2, h3, h4]
  have key2 : ∀ fuel, floatsF (fuel + 1) (some (.finite a)) (some (.finite 0)) =
      .ok (.fixedBoundedFloat (.finite a) (.finite 0)) := by
    intro fuel
    have h1 : ¬((0 : ℚ) < a) := by linarith
    have h2 : ¬(a = (0 : ℚ)) := by linarith
    have h3 : ¬(overflowBound ≤ -a) := by linarith
    have h4 : ¬(-a ≤ -overflowBound) := by linarith
    simp [floatsF, optIsNan, PyFloat.isNan, noneIfEq, PyFloat.eqv,
      PyFloat.lt, PyFloat.sub, PyFloat.ofRat, PyFloat.isInf, h1, h2, h3, h4]
  refine ⟨.fixedBoundedFloat (.finite 0) (.finite b),
    .fixedBoundedFloat (.finite a) (.finite 0), key1 1, key2 1, ?_⟩
  have h1 : ¬(b < a) := by linarith
  have h2 : ¬(a = b) := by linarith
  have h3 : ¬(b < 0) := by linarith
  have h4 : ¬((0 : ℚ) = b) := by linarith
  have h5 : ¬(overflowBound ≤ b) := by linarith
  have h6 : ¬(b ≤ -overflowBound) := by linarith
  have h7 : ¬((0 : ℚ) < a) := by linarith
  have h8 : ¬(a = (0 : ℚ)) := by linarith
  have h9 : ¬(overflowBound ≤ -a) := by linarith
  have h10 : ¬(overflowBound ≤ a) := by linarith
  simp [floats, floatsF, optIsNan, PyFloat.isNan, noneIfEq, PyFloat.eqv,
    PyFloat.lt, PyFloat.sub, PyFloat.ofRat, PyFloat.isInf,
    h1, h2, h3, h4, h5, h6, h7, h8, h9, h10, hd, ha, hb]

theorem floats_infinite_width_split_witness :
    floats (some (.finite (-(2 ^ 1023)))) (some (.finite (2 ^ 1023))) =
      .ok (hOr (.fixedBoundedFloat (.finite 0) (.finite (2 ^ 1023)))
        (.fixedBoundedFloat (.finite (-(2 ^ 1023))) (.finite 0))) := by
  obtain ⟨s1, s2, h1, h2, h3⟩ :=
    floats_infinite_width_split (-(2 ^ 1023)) (2 ^ 1023)
      (by norm_num) (by norm_num)
      (by norm_num [maxFloat]) (by norm_num [maxFloat])
      (by norm_num [PyFloat.sub, PyFloat.ofRat, overflowBound, PyFloat.isInf])
  have c1 : floats (some (.finite 0)) (some (.finite ((2 : ℚ) ^ 1023))) =
      .ok (.fixedBoundedFloat (.finite 0) (.finite (2 ^ 1023))) := by
    simp only [floats, floatsF, optIsNan, PyFloat.isNan, noneIfEq,
      PyFloat.eqv, PyFloat.lt, PyFloat.sub, PyFloat.ofRat, PyFloat.isInf,
      overflowBound, Bool.or_self]
    norm_num
  have c2 : floats (some (.finite (-((2 : ℚ) ^ 1023)))) (some (.finite 0)) =
      .ok (.fixedBoundedFloat (.finite (-(2 ^ 1023))) (.finite 0)) := by
    simp only [floats, floatsF, optIsNan, PyFloat.isNan, noneIfEq,
      PyFloat.eqv, PyFloat.lt, PyFloat.sub, PyFloat.ofRat, PyFloat.isInf,
      overflowBound, Bool.or_self]
    norm_num
  rw [h1] at c1
  rw [h2] at c2
  rw [Except.ok.injEq] at c1 c2
  rw [← c1, ← c2]
  exact h3

theorem invalid_construction_rejected_witness :
    ((1 : Int) < 2
      ∧ integers (some (.int 2)) (some (.int 1)) = .error .invalidArgument)
    ∧ (PyFloat.lt (.finite 0) (.finite 1) = true
      ∧ floats (some (.finite 1)) (some (.finite 0)) = .error .invalidArgument)
    ∧ ((badSize (some (.int 2)) || badSize none || badSize (some (.int 1))
          || conflictingSizes (some (.int 2)) (some (.int 1))) = true
      ∧ lists (some .boolS) (some (.int 2)) none (some (.int 1)) = .error .invalidArgument
      ∧ sets (some .boolS) (some (.int 2)) none (some (.int 1)) = .error .invalidArgument
      ∧ dictionaries (some .boolS) (some .boolS) (some (.int 2)) none (some (.int 1))
          = .error .invalidArgument) := by
  have hf : PyFloat.lt (.finite 0) (.finite 1) = true := by
    simp [PyFloat.lt]
  have hs : (badSize (some (.int 2)) || badSize none || badSize (some (.int 1))
      || conflictingSizes (some (.int 2)) (some (.int 1))) = true := by
    simp [badSize, conflictingSizes, SizeVal.lt]
  refine ⟨⟨by omega, invalid_construction_rejected.1 2 1 (by omega)⟩,
    ⟨hf, invalid_construction_rejected.2.1 (.finite 1) (.finite 0) hf⟩, hs, ?_⟩
  obtain ⟨h1, h2, h3⟩ := invalid_construction_rejected.2.2
    (some .boolS) (some .boolS) (some .boolS)
    (some (.int 2)) none (some (.int 1)) hs
  exact ⟨h1, h2, h3⟩

/-- C8 counterexample: an element strategy with distinct-template upper
bound 1 together with the valid size bound max_size 0 produces the
general empty list strategy, not the specialized single-element-list
representation. -/
theorem lists_max_size_zero_not_specialized :
    template_upper_bound (.just (.int 0)) = 1
    ∧ lists (some (.just (.int 0))) none none (some (.int 0)) =
        .ok (.listS [] none none none)
    ∧ isSingleList (.listS [] none none none) = false :=
  ⟨rfl, rfl, rfl⟩

/-- C8 amended: for an element strategy whose distinct-template upper
bound is 1, valid integer size bounds and a max_size that is absent or
positive, lists returns the specialized single-element-list
representation whose length strategy respects min_size and max_size. -/
theorem lists_single_element_spec (e : Strategy) (mn mx : Option Int)
    (avg : Option SizeVal)
    (hb : template_upper_bound e = 1)
    (hchk : check_valid_sizes (mn.map SizeVal.int) avg (mx.map SizeVal.int) = .ok ())
    (hmx : ∀ m, mx = some m → 0 < m) :
    ∃ ls, lists (some e) (mn.map SizeVal.int) avg (mx.map SizeVal.int) =
        .ok (.singleElementList e ls) ∧ lengthRespects (mn.getD 0) mx ls := by
  cases mx with
  | none =>
    cases mn with
    | none =>
      simp only [Option.map_none'] at hchk ⊢
      cases avg with
      | none =>
        exact ⟨.integersFrom (.int 0)
            (some (SizeVal.sub averageListLength (.int 0))),
          by simp [lists, hchk, hb, sizeLeZero], ⟨_, rfl⟩⟩
      | some a =>
        exact ⟨.integersFrom (.int 0) (some (SizeVal.sub a (.int 0))),
          by simp [lists, hchk, hb, sizeLeZero], ⟨_, rfl⟩⟩
    | some n =>
      simp only [Option.map_none', Option.map_some'] at hchk ⊢
      cases avg with
      | none =>
        exact ⟨.integersFrom (.int n)
            (some (SizeVal.sub averageListLength (.int n))),
          by simp [lists, hchk, hb, sizeLeZero], ⟨_, rfl⟩⟩
      | some a =>
        exact ⟨.integersFrom (.int n) (some (SizeVal.sub a (.int n))),
          by simp [lists, hchk, hb, sizeLeZero], ⟨_, rfl⟩⟩
  | some m =>
    simp only [Option.map_none', Option.map_some'] at hchk ⊢
    have h0m : 0 < m := hmx m rfl
    have hle0 : SizeVal.le (.int m) (.int 0) = false := by
      simp only [SizeVal.le, decide_eq_false_iff_not]
      omega
    have hmm : mn.getD 0 ≤ m := by
      cases mn with
      | none => simpa using le_of_lt h0m
      | some n =>
        have hnb := check_valid_sizes_ok_not_bad _ _ _ hchk
        simp only [Bool.or_eq_false_iff] at hnb
        have hcf := hnb.2
        simp only [Option.map_some', conflictingSizes, SizeVal.lt,
          decide_eq_false_iff_not] at hcf
        simpa using le_of_not_lt hcf
    obtain ⟨ls, hls⟩ :
        ∃ ls, integers (some (.int (mn.getD 0))) (some (.int m)) = .ok ls := by
      by_cases heq : mn.getD 0 = m
      · exact ⟨.just (.int (mn.getD 0)),
          by simp [integers, checkTypeInt, SizeVal.eqv, heq]⟩
      · have hlt : ¬(m < mn.getD 0) := by omega
        exact ⟨.boundedInt (.int (mn.getD 0)) (.int m),
          by simp [integers, checkTypeInt, SizeVal.eqv, SizeVal.lt, heq, hlt]⟩
    cases mn with
    | none =>
      simp only [Option.getD_none] at hls
      simp only [Option.map_none'] at hchk
      exact ⟨ls, by simp [lists, hchk, hb, sizeLeZero, hle0, hls], hls⟩
    | some n =>
      simp only [Option.getD_some] at hls
      simp only [Option.map_some'] at hchk
      exact ⟨ls, by simp [lists, hchk, hb, sizeLeZero, hle0, hls], hls⟩

theorem lists_single_element_spec_witness :
    lists (some (.just (.int 7))) (some (.int 1)) none (some (.int 3)) =
      .ok (.singleElementList (.just (.int 7)) (.boundedInt (.int 1) (.int 3)))
    ∧ lengthRespects 1 (some 3) (.boundedInt (.int 1) (.int 3)) := by
  obtain ⟨ls, h1, h2⟩ := lists_single_element_spec (.just (.int 7))
    (some 1) (some 3) none rfl rfl
    (by intro m hm; injection hm with hm; omega)
  simp only [Option.map_some'] at h1
  have hc : lists (some (.just (.int 7))) (some (.int 1)) none (some (.int 3)) =
      .ok (.singleElementList (.just (.int 7)) (.boundedInt (.int 1) (.int 3))) := rfl
  rw [hc] at h1
  rw [Except.ok.injEq, Strategy.singleElementList.injEq] at h1
  rw [← h1.2] at h2
  exact ⟨hc, h2⟩

theorem dictInsert_length_le {K V : Type} (keq : K → K → Bool)
    (d : List (K × V)) (k : K) (v : V) :
    (dictInsert keq d k v).length ≤ d.length + 1 := by
  unfold dictInsert
  split
  · simp
  · simp

theorem build_dict_loop_length {K V : Type} (keq : K → K → Bool)
    (mx : Option SizeVal) (data : List (K × V)) :
    ∀ r : List (K × V), lenReached mx r.length = false →
      lenReached mx (build_dict_loop keq mx data r).length = false
      ∨ ∃ n, lenReached mx n = false
          ∧ (build_dict_loop keq mx data r).length ≤ n + 1 := by
  induction data with
  | nil =>
    intro r h
    exact .inl h
  | cons p rest ih =>
    intro r h
    obtain ⟨k, v⟩ := p
    simp only [build_dict_loop]
    by_cases hb : lenReached mx (dictInsert keq r k v).length = true
    · rw [if_pos hb]
      exact .inr ⟨r.length, h, dictInsert_length_le keq r k v⟩
    · rw [if_neg hb]
      exact ih _ (by simpa using hb)

theorem conflictingSizes_none_right (mn : Option SizeVal) :
    conflictingSizes mn none = false := by
  cases mn <;> rfl

theorem check_valid_sizes_parts (mn avg mx : Option SizeVal)
    (h : check_valid_sizes mn avg mx = .ok ()) :
    check_valid_size mn = .ok () ∧ check_valid_size avg = .ok ()
    ∧ check_valid_size mx = .ok () ∧ conflictingSizes mn avg = false := by
  unfold check_valid_sizes at h
  cases hc1 : check_valid_size mn with
  | error e => rw [hc1] at h; simp at h
  | ok u =>
    cases u
    rw [hc1] at h
    cases hc2 : check_valid_size mx with
    | error e => rw [hc2] at h; simp at h
    | ok u2 =>
      cases u2
      rw [hc2] at h
      cases hc3 : check_valid_size avg with
      | error e => rw [hc3] at h; simp at h
      | ok u3 =>
        cases u3
        rw [hc3] at h
        split_ifs at h with h1 h2 h3
        exact ⟨rfl, rfl, rfl, by simpa using h3⟩

theorem check_valid_sizes_mk (mn avg : Option SizeVal)
    (h1 : check_valid_size mn = .ok ())
    (h2 : check_valid_size avg = .ok ())
    (h3 : conflictingSizes mn avg = false) :
    check_valid_sizes mn avg none = .ok () := by
  unfold check_valid_sizes
  rw [h1]
  show (match check_valid_size none with
    | Except.error e => Except.error e
    | Except.ok _ => _) = _
  rw [show check_valid_size none = .ok () from rfl, h2]
  simp [conflictingSizes_none_right, h3]

theorem check_valid_size_ok_parts (v : SizeVal)
    (h : check_valid_size (some v) = .ok ()) :
    SizeVal.lt v (.int 0) = false ∧ v.isFloatNan = false := by
  simp only [check_valid_size] at h
  split_ifs at h with h1 h2
  exact ⟨by simpa using h1, by simpa using h2⟩

theorem dict_average_ok (m : SizeVal)
    (h0 : SizeVal.lt m (.int 0) = false) (hn : m.isFloatNan = false) :
    check_valid_size (some (SizeVal.pymax (.int 0) (SizeVal.mul m (.int 2)))) = .ok ()
    ∧ SizeVal.lt (SizeVal.pymax (.int 0) (SizeVal.mul m (.int 2))) m = false := by
  cases m with
  | int i =>
    simp only [SizeVal.lt, decide_eq_false_iff_not] at h0
    simp only [SizeVal.mul, SizeVal.pymax, SizeVal.lt, check_valid_size,
      SizeVal.isFloatNan]
    split_ifs with h1
    all_goals simp_all
    all_goals omega
  | float f =>
    cases f with
    | nan => simp [SizeVal.isFloatNan, PyFloat.isNan] at hn
    | inf pos =>
      cases pos with
      | false => simp [SizeVal.lt, PyFloat.lt] at h0
      | true =>
        norm_num [SizeVal.mul, PyFloat.mul, SizeVal.pymax, SizeVal.lt,
          PyFloat.lt, check_valid_size, SizeVal.isFloatNan, PyFloat.isNan]
    | finite q =>
      have hq : (0 : ℚ) ≤ q := by
        simp only [SizeVal.lt, PyFloat.lt, decide_eq_false_iff_not] at h0
        push_cast at h0
        exact not_lt.mp h0
      have hob : (0 : ℚ) < overflowBound := by norm_num [overflowBound]
      by_cases o1 : overflowBound ≤ q * 2
      · have hmul : SizeVal.mul (.float (.finite q)) (.int 2) = .float (.inf true) := by
          simp only [SizeVal.mul, PyFloat.mul, PyFloat.ofRat]
          push_cast
          rw [if_pos o1]
        have hA : SizeVal.pymax (.int 0) (.float (.inf true)) = .float (.inf true) := by
          simp [SizeVal.pymax, SizeVal.lt, PyFloat.lt]
        rw [hmul, hA]
        norm_num [check_valid_size, SizeVal.lt, PyFloat.lt,
          SizeVal.isFloatNan, PyFloat.isNan]
      · have hmul : SizeVal.mul (.float (.finite q)) (.int 2) =
            .float (.finite (q * 2)) := by
          simp only [SizeVal.mul, PyFloat.mul, PyFloat.ofRat]
          push_cast
          rw [if_neg o1, if_neg (by linarith)]
        rw [hmul]
        by_cases o3 : (0 : ℚ) < q * 2
        · have hA : SizeVal.pymax (.int 0) (.float (.finite (q * 2))) =
              .float (.finite (q * 2)) := by
            simp [SizeVal.pymax, SizeVal.lt, PyFloat.lt, o3]
          rw [hA]
          have hnneg : ¬(q * 2 < (0 : ℚ)) := by linarith
          have hnlt : ¬(q * 2 < q) := by linarith
          constructor
          · simp [check_valid_size, SizeVal.lt, PyFloat.lt,
              SizeVal.isFloatNan, PyFloat.isNan, hnneg]
          · simp [SizeVal.lt, PyFloat.lt, hnlt]
        · have hq0 : q = 0 := by
            have h1 : q ≤ 0 := by linarith
            linarith
          subst hq0
          norm_num [SizeVal.pymax, SizeVal.lt, PyFloat.lt, check_valid_size,
            SizeVal.isFloatNan, PyFloat.isNan]

theorem lists_no_max_ok (e : Strategy) (mn avg : Option SizeVal)
    (hchk : check_valid_sizes mn avg none = .ok ()) :
    ∃ s, lists (some e) mn avg none = .ok s := by
  simp only [lists, hchk, sizeLeZero]
  split_ifs <;> exact ⟨_, rfl⟩

theorem lt_zero_true_not_eq_zero (m : SizeVal)
    (h : SizeVal.lt (.int 0) m = true) : SizeVal.eqv m (.int 0) = false := by
  cases m with
  | int i =>
    simp only [SizeVal.lt, decide_eq_true_eq] at h
    simp only [SizeVal.eqv, decide_eq_false_iff_not]
    omega
  | float f =>
    cases f with
    | nan => simp [SizeVal.eqv, PyFloat.eqv]
    | inf pos => simp [SizeVal.eqv, PyFloat.eqv]
    | finite q =>
      simp only [SizeVal.lt, PyFloat.lt, decide_eq_true_eq] at h
      simp only [SizeVal.eqv, PyFloat.eqv, decide_eq_false_iff_not]
      push_cast at h
      intro hq
      rw [hq] at h
      simp at h

/-- C7 amended: for valid sizes (no explicit average_size) with a
positive or absent max_size, dictionaries is the list-of-pairs strategy
mapped through build_dict, and every mapping build_dict produces has at
least min_size keys and at most max_size keys when max_size is an
integer (below max_size plus one for a float max_size). -/
theorem dictionaries_size_bounds (mn mx : Option SizeVal)
    (hchk : check_valid_sizes mn none mx = .ok ())
    (hmx0 : ∀ m, mx = some m → SizeVal.lt (.int 0) m = true) :
    (∀ ks vs : Strategy, ∃ L, dictionaries (some ks) (some vs) mn none mx =
        .ok (.mapS L (.buildDict mn mx)))
    ∧ (∀ (K V : Type) (keq : K → K → Bool) (data : List (K × V))
        (d : List (K × V)),
        build_dict keq mn mx data = some d →
        (∀ m, mn = some m → SizeVal.le m (.int (d.length : Int)) = true)
        ∧ (∀ m, mx = some m → sizeUpperOK m d.length)) := by
  obtain ⟨p1, p2, pmx, p3⟩ := check_valid_sizes_parts _ _ _ hchk
  constructor
  · intro ks vs
    have hz : sizeEqZero mx = false := by
      cases mx with
      | none => rfl
      | some m => simpa [sizeEqZero] using lt_zero_true_not_eq_zero m (hmx0 m rfl)
    have hinner : ∃ L, lists (some (tuples [ks, vs])) mn
        (match mn with
         | some m => some (SizeVal.pymax (orZero none) (SizeVal.mul m (.int 2)))
         | none => none) none = .ok L := by
      cases mn with
      | none =>
        exact lists_no_max_ok _ _ _ (check_valid_sizes_mk none none rfl rfl rfl)
      | some m =>
        obtain ⟨q1, q2⟩ := check_valid_size_ok_parts m p1
        obtain ⟨r1, r2⟩ := dict_average_ok m q1 q2
        refine lists_no_max_ok _ _ _ (check_valid_sizes_mk _ _ p1 ?_ ?_)
        · simpa [orZero] using r1
        · simpa [conflictingSizes, orZero] using r2
    obtain ⟨L, hL⟩ := hinner
    refine ⟨L, ?_⟩
    simp only [dictionaries, hchk, hz, Bool.false_eq_true, if_false,
      check_strategy]
    rw [hL]
  · intro K V keq data d h
    have hd : d = build_dict_loop keq mx data []
        ∧ minSizeOK mn (build_dict_loop keq mx data []).length = true := by
      simp only [build_dict] at h
      cases hcond : minSizeOK mn (build_dict_loop keq mx data []).length with
      | false =>
        rw [hcond] at h
        simp at h
      | true =>
        rw [hcond] at h
        rw [if_pos rfl] at h
        exact ⟨(Option.some.inj h).symm, rfl⟩
    constructor
    · intro m hm
      subst hm
      rw [hd.1]
      have h2 := hd.2
      simp only [minSizeOK] at h2
      exact h2
    · intro m hm
      subst hm
      obtain ⟨q1, q2⟩ := check_valid_size_ok_parts m pmx
      have hpos := hmx0 m rfl
      rw [hd.1]
      cases m with
      | int i =>
        have hi : 0 < i := by
          simpa [SizeVal.lt] using hpos
        have hstart : lenReached (some (.int i)) ([] : List (K × V)).length
            = false := by
          simp only [lenReached, SizeVal.le, List.length_nil,
            decide_eq_false_iff_not]
          omega
        rcases build_dict_loop_length keq (some (.int i)) data [] hstart with
          hcase | ⟨n, hn, hlen⟩
        · simp only [lenReached, SizeVal.le, decide_eq_false_iff_not] at hcase
          show ((build_dict_loop keq (some (.int i)) data []).length : Int) ≤ i
          omega
        · simp only [lenReached, SizeVal.le, decide_eq_false_iff_not] at hn
          show ((build_dict_loop keq (some (.int i)) data []).length : Int) ≤ i
          omega
      | float f =>
        cases f with
        | nan => simp [SizeVal.isFloatNan, PyFloat.isNan] at q2
        | inf pos =>
          cases pos with
          | false => simp [SizeVal.lt, PyFloat.lt] at hpos
          | true => exact trivial
        | finite q =>
          have hq : (0 : ℚ) < q := by
            have := hpos
            simp only [SizeVal.lt, PyFloat.lt, decide_eq_true_eq] at this
            push_cast at this
            exact this
          have hstart : lenReached (some (.float (.finite q)))
              ([] : List (K × V)).length = false := by
            simp only [lenReached, SizeVal.le, PyFloat.le, List.length_nil,
              decide_eq_false_iff_not]
            push_cast
            linarith
          rcases build_dict_loop_length keq (some (.float (.finite q))) data []
              hstart with hcase | ⟨n, hn, hlen⟩
          · simp only [lenReached, SizeVal.le, PyFloat.le,
              decide_eq_false_iff_not] at hcase
            show (((build_dict_loop keq (some (.float (.finite q))) data
                []).length : ℚ)) < q + 1
            push_cast at hcase
            linarith [not_le.mp hcase]
          · simp only [lenReached, SizeVal.le, PyFloat.le,
              decide_eq_false_iff_not] at hn
            show (((build_dict_loop keq (some (.float (.finite q))) data
                []).length : ℚ)) < q + 1
            push_cast at hn
            have hlq : ((build_dict_loop keq (some (.float (.finite q))) data
                []).length : ℚ) ≤ (n : ℚ) + 1 := by
              exact_mod_cast hlen
            linarith [not_le.mp hn]

theorem dictionaries_size_bounds_witness :
    dictionaries (some .boolS) (some .boolS) (some (.int 1)) none (some (.int 2)) =
      .ok (.mapS (.listS [.tupleS [.boolS, .boolS]] (some (.int 2))
          (some (.int 1)) none)
        (.buildDict (some (.int 1)) (some (.int 2))))
    ∧ SizeVal.le (.int 1) (.int 2) = true
    ∧ sizeUpperOK (.int 2) 2 := by
  obtain ⟨hshape, hbounds⟩ := dictionaries_size_bounds
    (some (.int 1)) (some (.int 2)) rfl (by intro m hm; cases hm; rfl)
  have hc : dictionaries (some .boolS) (some .boolS) (some (.int 1)) none
      (some (.int 2)) =
      .ok (.mapS (.listS [.tupleS [.boolS, .boolS]] (some (.int 2))
          (some (.int 1)) none)
        (.buildDict (some (.int 1)) (some (.int 2)))) := rfl
  obtain ⟨hmin, hmax⟩ := hbounds Int Int (fun a b => a == b)
    [((0 : Int), (0 : Int)), (1, 1)] [((0 : Int), (0 : Int)), (1, 1)] rfl
  exact ⟨hc, hmin (.int 1) rfl, hmax (.int 2) rfl⟩

/-- C7 counterexample: with the valid fractional size max_size 5/2,
dictionaries can reify a mapping with three keys, and 3 does not satisfy
len at most max_size, so the claimed bound min_size at most len at most
max_size fails as stated for non-integer sizes. -/
theorem dictionaries_float_max_size_exceeded :
    dictionaries (some (.boundedInt (.int 0) (.int 5))) (some (.just (.int 0)))
        (some (.int 1)) none (some (.float (.finite (5/2)))) =
      .ok (.mapS (.listS [.tupleS [.boundedInt (.int 0) (.int 5), .just (.int 0)]]
            (some (.int 2)) (some (.int 1)) none)
          (.buildDict (some (.int 1)) (some (.float (.finite (5/2))))))
    ∧ Reifies (.listS [.tupleS [.boundedInt (.int 0) (.int 5), .just (.int 0)]]
          (some (.int 2)) (some (.int 1)) none)
        (.list [.tup [.int 0, .int 0], .tup [.int 1, .int 0],
          .tup [.int 2, .int 0]])
    ∧ applyMapFn (.buildDict (some (.int 1)) (some (.float (.finite (5/2)))))
        (.list [.tup [.int 0, .int 0], .tup [.int 1, .int 0],
          .tup [.int 2, .int 0]])
        = some (.dict [(.int 0, .int 0), (.int 1, .int 0), (.int 2, .int 0)])
    ∧ SizeVal.le (.int 3) (.float (.finite (5/2))) = false := by
  refine ⟨?_, ?_, ?_, ?_⟩
  · have h6 : ¬(template_upper_bound
        (.tupleS [.boundedInt (.int 0) (.int 5), .just (.int 0)]) = 1) := by
      decide
    norm_num [dictionaries, check_valid_sizes, check_valid_size,
      conflictingSizes, sizeEqZero, SizeVal.eqv, PyFloat.eqv, SizeVal.lt,
      PyFloat.lt, SizeVal.isFloatNan, PyFloat.isNan, check_strategy, orZero,
      SizeVal.isZeroish, SizeVal.pymax, SizeVal.mul, lists, sizeLeZero,
      SizeVal.le, PyFloat.le, tuples, h6]
  · refine Reifies.listR ?_ ?_ ?_
    · intro v hv
      simp only [List.mem_cons, List.not_mem_nil, or_false] at hv
      rcases hv with h | h | h <;> subst h <;>
        exact Reifies.tupleConsR (Reifies.boundedIntR (by norm_num) (by norm_num))
          (Reifies.tupleConsR (Reifies.justR _) Reifies.tupleNilR)
    · intro m hm
      cases hm
      decide
    · intro m hm
      simp at hm
  · norm_num [applyMapFn, extractPairs, build_dict, minSizeOK, build_dict_loop,
      dictInsert, lenReached, SizeVal.le, PyFloat.le, Val.beq]
  · norm_num [SizeVal.le, PyFloat.le]

end Hyp
